import Mathlib

/-!
Verification development for the adaptic-backend conversational agent.

The development shallowly embeds the two relevant source files:

* `src/ai/graph.ts` — the LangGraph conversation state machine with three
  nodes (`introduction_node`, `event_extraction_node`, `nft_creation_node`),
  its channel reducers, and its conditional edges; and
* the Express endpoint file (`app.get("/api/agent")`) — the chat-history
  adapter `convertChatHistoryToMessages` and the streaming loop that turns
  each node update into wire events, plus its catch/finally error handling.

Language-model invocations are opaque capabilities in the source; here each
node takes the model reply as an explicitly quantified argument.  JavaScript
string primitives used by the source (`toLowerCase`, `trim`, `split`,
`replace` with a string pattern, `startsWith`, regex test / match) are
modelled as executable functions on the character list underlying a `String`.
-/

/-! ## Models of the JavaScript string primitives used by the source -/

/-- Model of JavaScript `s.toLowerCase()` (the source only feeds ASCII). -/
def jsToLowerCase (s : String) : String :=
  String.mk (s.data.map Char.toLower)

/-- Model of JavaScript `s.trim()`: strip whitespace from both ends. -/
def jsTrim (s : String) : String :=
  String.mk (((s.data.dropWhile Char.isWhitespace).reverse.dropWhile Char.isWhitespace).reverse)

/-- Model of JavaScript `s.startsWith(pat)`. -/
def jsStartsWith (s pat : String) : Bool :=
  List.isPrefixOf pat.data s.data

/-- Helper for `jsSplitOn`: accumulate the current field (reversed) while
splitting at every occurrence of the separator character. -/
def splitChAux (sep : Char) (acc : List Char) : List Char → List (List Char)
  | [] => [acc.reverse]
  | x :: rest =>
    if x = sep then acc.reverse :: splitChAux sep [] rest
    else splitChAux sep (x :: acc) rest

/-- Model of JavaScript `s.split(sep)` for a one-character separator string
(the source only splits on `"|"`): splits at every occurrence, keeping empty
fields, and yields `[s]` when the separator does not occur. -/
def jsSplitOn (s : String) (sep : Char) : List String :=
  (splitChAux sep [] s.data).map String.mk

/-- Helper for `jsReplaceFirst` on character lists. -/
def replaceFirstAux (pat rep : List Char) : List Char → List Char
  | [] => []
  | c :: rest =>
    if List.isPrefixOf pat (c :: rest) then rep ++ List.drop pat.length (c :: rest)
    else c :: replaceFirstAux pat rep rest

/-- Model of JavaScript `s.replace(pat, rep)` with a plain (non-regex,
non-empty) string pattern: only the first occurrence is replaced. -/
def jsReplaceFirst (s pat rep : String) : String :=
  String.mk (replaceFirstAux pat.data rep.data s.data)

/-- Substring test, modelling JavaScript `/word/.test(s)` for a literal word. -/
def strContainsB (s pat : String) : Bool :=
  s.data.tails.any (fun t => List.isPrefixOf pat.data t)

/-- Word character, as in the regex class `\w` = `[A-Za-z0-9_]`. -/
def isWordChar (c : Char) : Bool :=
  c.isAlphanum || c = '_'

/-- Try to match the regex tail `(\w+)\}` at the start of `rest` (the part
after an opening brace): a maximal non-empty run of word characters followed
by a closing brace.  Returns the captured name and the remainder after the
closing brace. -/
def matchPlaceholder (rest : List Char) : Option (String × List Char) :=
  let w := rest.takeWhile isWordChar
  match rest.dropWhile isWordChar with
  | '}' :: rest' => if w.isEmpty then none else some (String.mk w, rest')
  | _ => none

/-- One fuel-indexed pass of JavaScript
`s.replace(/\x7b(\w+)\x7d/g, (match, key) => ...)` where the callback either
substitutes (policy returns `some v`) or keeps the whole match verbatim
(policy returns `none`).  The fuel only totalizes the recursion; `fuel =
s.length` always suffices because every step consumes at least one
character. -/
def scanPlaceholdersF (policy : String → Option String) : Nat → List Char → List Char
  | 0, s => s
  | _ + 1, [] => []
  | n + 1, c :: rest =>
    if c = '{' then
      match matchPlaceholder rest with
      | some (key, rest') =>
        (match policy key with
         | some v => v.data
         | none => '{' :: (key.data ++ ['}'])) ++ scanPlaceholdersF policy n rest'
      | none => c :: scanPlaceholdersF policy n rest
    else c :: scanPlaceholdersF policy n rest

/-- Model of JavaScript `s.replace(/\x7b(\w+)\x7d/g, f)` with a callback
policy as in `scanPlaceholdersF`. -/
def scanPlaceholders (policy : String → Option String) (s : String) : String :=
  String.mk (scanPlaceholdersF policy s.length s.data)

/-- Does the string contain an occurrence of a `\x7b(\w+)\x7d` placeholder? -/
def hasPlaceholder : List Char → Bool
  | [] => false
  | c :: rest =>
    if c = '{' then (matchPlaceholder rest).isSome || hasPlaceholder rest
    else hasPlaceholder rest

/-! ## Source `graph.ts`: `formatTemplate`

Source:
`const formatTemplate = (template, data) => template.replace(/\x7b(\w+)\x7d/g, (match, key) => data[key] || match);`

`data[key] || match` keeps the whole match when the key is absent
(`undefined`) or when its value is the empty string (both falsy). -/

/-- The template renderer of `graph.ts`.  The mapping is modelled as a
partial lookup `String → Option String`. -/
def formatTemplate (template : String) (data : String → Option String) : String :=
  scanPlaceholders
    (fun key =>
      match data key with
      | some v => if v = "" then none else some v
      | none => none)
    template

/-- Modelled from the spec (used only for the refinement comparison in C5):
"Replaces every occurrence of a `\x7bname\x7d` placeholder with
`values[name]`; a placeholder whose name is absent from `values` is left
unsubstituted verbatim." -/
def renderSpec (template : String) (data : String → Option String) : String :=
  scanPlaceholders data template

/-! ## Source endpoint file: chat-history adapter -/

/-- LangChain message kinds reaching the graph (`HumanMessage` /
`AIMessage`). -/
inductive BaseMessage where
  | humanMessage (content : String)
  | aiMessage (content : String)
deriving DecidableEq, Repr

/-- The `switch (role.toLowerCase())` body inside
`convertChatHistoryToMessages`: `"human"` to human, `"assistant"` and
`"ai"` to AI, anything else logged and treated as human. -/
def roleToMessage (role content : String) : BaseMessage :=
  match jsToLowerCase role with
  | "human" => BaseMessage.humanMessage content
  | "assistant" => BaseMessage.aiMessage content
  | "ai" => BaseMessage.aiMessage content
  | _ => BaseMessage.humanMessage content

/-- `convertChatHistoryToMessages` from the endpoint file. -/
def convertChatHistoryToMessages (chat_history : List (String × String)) : List BaseMessage :=
  chat_history.map (fun p => roleToMessage p.1 p.2)

/-! ## Wire events pushed over the event stream -/

/-- One server-push event, as built by the `sendEvent` calls of the
endpoint.  The wager payload is kept as the raw captured text; whether
`JSON.parse` succeeds on it is an external capability, passed as a
predicate. -/
inductive WireEvent where
  | loading (content : String)
  | message (content : String)
  | wager (content : String) (payload : String)
  | error (msg : String)
  | endEvent
deriving DecidableEq, Repr

/-! ## Regex `/\[OBJ\](.*?)\[\/OBJ\]/` from the streaming loop

Lazy capture of the text between the literal markers; `.` does not cross
newline characters (no `s` flag), and on failure the engine retries the
opening marker further right. -/

/-- Capture the shortest newline-free text up to a closing `[/OBJ]` marker. -/
def objCapture : List Char → Option (List Char)
  | [] => none
  | c :: rest =>
    if List.isPrefixOf ("[/OBJ]".data) (c :: rest) then some []
    else if c = '\n' || c = '\r' || c = Char.ofNat 8232 || c = Char.ofNat 8233 then none
    else (objCapture rest).map (fun l => c :: l)

/-- Scan for the first position where the whole pattern matches. -/
def objSearch : List Char → Option (List Char)
  | [] => none
  | c :: rest =>
    if List.isPrefixOf ("[OBJ]".data) (c :: rest) then
      match objCapture (List.drop 4 rest) with
      | some cap => some cap
      | none => objSearch rest
    else objSearch rest

/-- Model of `message.match(/\[OBJ\](.*?)\[\/OBJ\]/)`, returning the first
captured group when the regex matches. -/
def objMatch (s : String) : Option String :=
  (objSearch s.data).map String.mk

/-! ## The streaming loop of `app.get("/api/agent")`

The loop iterates over stream updates `(nodeName, nodeOutput)` and keeps two
booleans across iterations: `hasSentLoadingIndicator` and
`initialNodeComplete`.  `jsonOk cap` tells whether `JSON.parse(cap)`
succeeds. -/

structure LoopFlags where
  hasSentLoadingIndicator : Bool
  initialNodeComplete : Bool
deriving DecidableEq, Repr

def initialFlags : LoopFlags :=
  { hasSentLoadingIndicator := false, initialNodeComplete := false }

def apologyText : String :=
  "I apologize, but I encountered an error processing your request. Please try again."

/-- The `else if` chain after the wager-object branch of the loop body. -/
def plainDispatch (flags : LoopFlags) (nodeName m : String) : List WireEvent × LoopFlags :=
  if nodeName = "initial_node" then
    ([WireEvent.message m], { flags with initialNodeComplete := true })
  else if nodeName = "wager_info_extraction_node" || nodeName = "event_details_extraction_node" then
    ([WireEvent.message m], flags)
  else
    ([], flags)

/-- Events emitted for one stream update, in source order: the
`initial_node` loading check first, then the dispatch guarded by the
truthiness of `output?.messages?.[0]` (absent or empty first message emits
nothing). -/
def updateEvents (jsonOk : String → Bool) (flags : LoopFlags) (nodeName : String)
    (messages : List String) : List WireEvent × LoopFlags :=
  let loadingStep : List WireEvent × LoopFlags :=
    if nodeName = "initial_node" && !flags.hasSentLoadingIndicator then
      ([WireEvent.loading "Processing your request..."],
        { flags with hasSentLoadingIndicator := true })
    else ([], flags)
  match messages.head? with
  | none => loadingStep
  | some m =>
    if m = "" then loadingStep
    else
      match objMatch m with
      | some cap =>
        if nodeName = "wager_validation_node" then
          if jsonOk cap then
            (loadingStep.1 ++ [WireEvent.wager "Wager created successfully!" cap], loadingStep.2)
          else
            (loadingStep.1 ++ [WireEvent.message "Error creating wager object"], loadingStep.2)
        else
          let d := plainDispatch loadingStep.2 nodeName m
          (loadingStep.1 ++ d.1, d.2)
      | none =>
        let d := plainDispatch loadingStep.2 nodeName m
        (loadingStep.1 ++ d.1, d.2)

/-- Fold of the streaming loop over the whole update list. -/
def processUpdates (jsonOk : String → Bool) :
    List (String × List String) → LoopFlags → List WireEvent × LoopFlags
  | [], flags => ([], flags)
  | (n, ms) :: rest, flags =>
    let step := updateEvents jsonOk flags n ms
    let next := processUpdates jsonOk rest step.2
    (step.1 ++ next.1, next.2)

/-- Wire events of a run whose stream completes normally: the loop events
followed by the single `end` event. -/
def streamRun (jsonOk : String → Bool) (updates : List (String × List String)) : List WireEvent :=
  (processUpdates jsonOk updates initialFlags).1 ++ [WireEvent.endEvent]

/-- Wire events of a run interrupted by an uncaught failure after the given
prefix of updates was processed: the catch block sends the apologetic
fallback when `initialNodeComplete` is still false, then the `error` event
with the failure description, then `end`. -/
def streamRunError (jsonOk : String → Bool) (updates : List (String × List String))
    (errMsg : String) : List WireEvent :=
  let processed := processUpdates jsonOk updates initialFlags
  processed.1 ++
    (if processed.2.initialNodeComplete then [] else [WireEvent.message apologyText]) ++
    [WireEvent.error errMsg, WireEvent.endEvent]

/-! ## Source `graph.ts`: state, channels and nodes

The `AdapticState` channels and their reducers (`graphConfig`): every scalar
channel uses `(x, y) => y ?? x` (a `null`/`undefined` update keeps the old
value) and `messages` uses `(x, y) => (x ?? []).concat(y ?? [])`.
`currentStep` defaults to `"initial"`, the other optional channels to
`null`. -/

/-- The NFT ticket object built by `nft_creation_node`.  The nested JSON
structure is flattened into one record; `attributes` keeps its
`(trait_type, value)` pairs. -/
structure NftTicket where
  type : String
  name : String
  date : String
  ticketPrice : String
  maxSupply : String
  transferable : Bool
  refundable : Bool
  description : String
  image : String
  attributes : List (String × String)
  status : String
  createdAt : String
deriving DecidableEq, Repr

/-- The graph state threaded between nodes. -/
structure AdapticState where
  input : String
  chat_history : List BaseMessage
  messages : List String
  operation : Option String
  currentStep : String
  eventName : Option String
  eventDate : Option String
  nftTicketObject : Option NftTicket
deriving DecidableEq, Repr

/-- A partial state update as returned by a node; an absent field is the
JavaScript `undefined`. -/
structure StateUpdate where
  operation : Option String
  currentStep : Option String
  eventName : Option String
  eventDate : Option String
  nftTicketObject : Option NftTicket
  messages : List String
deriving DecidableEq, Repr

/-- The `y ?? x` channel reducer. -/
def jsNullish {α : Type} (y x : Option α) : Option α :=
  match y with
  | some v => some v
  | none => x

/-- Apply the channel reducers of `graphConfig` to a node update.  Nodes
never return `input` or `chat_history`, so those channels keep their
values; `messages` concatenates. -/
def applyUpdate (s : AdapticState) (u : StateUpdate) : AdapticState :=
  { input := s.input
    chat_history := s.chat_history
    messages := s.messages ++ u.messages
    operation := jsNullish u.operation s.operation
    currentStep :=
      match u.currentStep with
      | some v => v
      | none => s.currentStep
    eventName := jsNullish u.eventName s.eventName
    eventDate := jsNullish u.eventDate s.eventDate
    nftTicketObject := jsNullish u.nftTicketObject s.nftTicketObject }

/-- The initial state the endpoint hands to `graph.stream`: just `input`
and `chat_history`; the other channels take their defaults. -/
def initState (input : String) (hist : List BaseMessage) : AdapticState :=
  { input := input
    chat_history := hist
    messages := []
    operation := none
    currentStep := "initial"
    eventName := none
    eventDate := none
    nftTicketObject := none }

/-- The intent test of `introduction_node`:
`/create|event|ticket|nft|deploy|contract/.test(input)` on the lowercased
input. -/
def testEventCreation (input : String) : Bool :=
  strContainsB input "create" || strContainsB input "event" || strContainsB input "ticket" ||
    strContainsB input "nft" || strContainsB input "deploy" || strContainsB input "contract"

/-- `introduction_node` of `graph.ts`.  On an intent match the model is not
called and the run is routed to extraction with no message; otherwise the
model is invoked with the introduction prompt (the reply is the quantified
`modelReply`) and emitted as the single message. -/
def introduction_node (s : AdapticState) (modelReply : String) : StateUpdate :=
  if testEventCreation (jsToLowerCase s.input) then
    { operation := some "event_creation"
      currentStep := some "event_extraction"
      eventName := none
      eventDate := none
      nftTicketObject := none
      messages := [] }
  else
    { operation := some "introduction"
      currentStep := some "introduction_complete"
      eventName := none
      eventDate := none
      nftTicketObject := none
      messages := [modelReply] }

/-- The literal completion marker checked by `event_extraction_node`. -/
def extractionMarker : String := "EXTRACTION_COMPLETE:"

/-- `event_extraction_node` of `graph.ts`.  The system prompt built with
`formatTemplate` only feeds the model, whose reply is the quantified
`modelReply`; the state change depends solely on that reply.  On the marker
the remainder is split on every `|`, each part trimmed, and `parts[0]` /
`parts[1]` stored (a JavaScript out-of-range index is `undefined`, hence
`Option`). -/
def event_extraction_node (s : AdapticState) (modelReply : String) : StateUpdate :=
  if jsStartsWith modelReply extractionMarker then
    let parts := (jsSplitOn (jsReplaceFirst modelReply extractionMarker "") '|').map jsTrim
    { operation := some "event_creation"
      currentStep := some "nft_creation"
      eventName := parts.get? 0
      eventDate := parts.get? 1
      nftTicketObject := none
      messages := [] }
  else
    { operation := some "event_creation"
      currentStep := some "event_extraction"
      eventName := none
      eventDate := none
      nftTicketObject := none
      messages := [modelReply] }

/-- JavaScript `x || d` for an optional string: the default is used when
`x` is `null`/`undefined` or the empty string. -/
def jsOrString (x : Option String) (d : String) : String :=
  match x with
  | some v => if v = "" then d else v
  | none => d

/-- The human-readable summary message of `nft_creation_node`. -/
def nftSummaryMessage (t : NftTicket) : String :=
  "🎫 Perfect! I have prepared your NFT ticketing contract. Here are the details:\n\n**Event:** "
    ++ t.name ++ "\n**Date:** " ++ t.date ++ "\n**Ticket Price:** " ++ t.ticketPrice
    ++ " MASSA\n**Max Supply:** " ++ t.maxSupply
    ++ " tickets\n\nYou can now deploy this NFT ticketing contract to the Massa blockchain! The contract will allow users to mint tickets as NFTs for your event."

/-- `nft_creation_node` of `graph.ts`: no model call; builds the ticket
object deterministically (the `new Date().toISOString()` timestamp is the
explicit `now` argument). -/
def nft_creation_node (s : AdapticState) (now : String) : StateUpdate :=
  let ticket : NftTicket :=
    { type := "nft_ticket"
      name := jsOrString s.eventName "Unknown Event"
      date := jsOrString s.eventDate "Unknown Date"
      ticketPrice := "0.1"
      maxSupply := "100"
      transferable := true
      refundable := false
      description := "NFT Ticket for " ++ jsOrString s.eventName "Event"
      image := ""
      attributes := [("Event Type", "General Admission"), ("Date", jsOrString s.eventDate "TBD")]
      status := "ready_to_deploy"
      createdAt := now }
  { operation := some "event_creation"
    currentStep := some "completed"
    eventName := none
    eventDate := none
    nftTicketObject := some ticket
    messages := [nftSummaryMessage ticket] }

/-- The conditional edge after `introduction_node`: route to
`event_extraction_node` when `operation === "event_creation"`, else `END`
(`none`). -/
def routeAfterIntroduction (s : AdapticState) : Option String :=
  if s.operation = some "event_creation" then some "event_extraction_node" else none

/-- The conditional edge after `event_extraction_node`: route to
`nft_creation_node` when `currentStep === "nft_creation"`, else `END`. -/
def routeAfterExtraction (s : AdapticState) : Option String :=
  if s.currentStep = "nft_creation" then some "nft_creation_node" else none

/-- Result of one full run of the compiled graph in `updates` stream mode:
the final state, the `(nodeName, nodeOutput.messages)` updates in emission
order, and how many times the model was invoked. -/
structure RunResult where
  finalState : AdapticState
  updates : List (String × List String)
  modelCalls : Nat
deriving Repr

/-- One run of the compiled graph, `START → introduction_node → …`, with the
model replies for the two stages that may invoke it and the timestamp for
`nft_creation_node` passed explicitly. -/
def runGraph (input : String) (hist : List BaseMessage) (r1 r2 now : String) : RunResult :=
  let s0 := initState input hist
  let u1 := introduction_node s0 r1
  let s1 := applyUpdate s0 u1
  let c1 : Nat := if testEventCreation (jsToLowerCase s0.input) then 0 else 1
  match routeAfterIntroduction s1 with
  | none => { finalState := s1, updates := [("introduction_node", u1.messages)], modelCalls := c1 }
  | some _ =>
    let u2 := event_extraction_node s1 r2
    let s2 := applyUpdate s1 u2
    match routeAfterExtraction s2 with
    | none =>
      { finalState := s2
        updates := [("introduction_node", u1.messages), ("event_extraction_node", u2.messages)]
        modelCalls := c1 + 1 }
    | some _ =>
      let u3 := nft_creation_node s2 now
      { finalState := applyUpdate s2 u3
        updates := [("introduction_node", u1.messages), ("event_extraction_node", u2.messages),
          ("nft_creation_node", u3.messages)]
        modelCalls := c1 + 1 }

/-- The successive states of one run, in execution order (initial state
included). -/
def runStates (input : String) (hist : List BaseMessage) (r1 r2 now : String) :
    List AdapticState :=
  let s0 := initState input hist
  let s1 := applyUpdate s0 (introduction_node s0 r1)
  match routeAfterIntroduction s1 with
  | none => [s0, s1]
  | some _ =>
    let s2 := applyUpdate s1 (event_extraction_node s1 r2)
    match routeAfterExtraction s2 with
    | none => [s0, s1, s2]
    | some _ => [s0, s1, s2, applyUpdate s2 (nft_creation_node s2 now)]

/-- A state is reachable when some run of the graph passes through it. -/
inductive Reachable : AdapticState → Prop where
  | of_run (input : String) (hist : List BaseMessage) (r1 r2 now : String) (s : AdapticState)
      (mem : s ∈ runStates input hist r1 r2 now) : Reachable s

/-! ## Concrete run used by the witnesses -/

def wState0 : AdapticState := initState "create" []

def wState1 : AdapticState := applyUpdate wState0 (introduction_node wState0 "unused")

def wReply2 : String := "EXTRACTION_COMPLETE: Summer Gala | 25/12/2025"

def wState2 : AdapticState := applyUpdate wState1 (event_extraction_node wState1 wReply2)

def wState3 : AdapticState := applyUpdate wState2 (nft_creation_node wState2 "2025-01-01T00:00:00.000Z")

/-! ## Helper lemmas -/

theorem matchPlaceholder_recon {rest : List Char} {key : String} {rest' : List Char}
    (h : matchPlaceholder rest = some (key, rest')) : key.data ++ '}' :: rest' = rest := by
  simp only [matchPlaceholder] at h
  split at h
  · rename_i heq
    split at h
    · exact absurd h (by simp)
    · rename_i hne
      obtain ⟨hk, hr⟩ : String.mk (rest.takeWhile isWordChar) = key ∧ _ = rest' := by
        simpa using h
      subst hk; subst hr
      calc (String.mk (rest.takeWhile isWordChar)).data ++ '}' :: _
          = rest.takeWhile isWordChar ++ rest.dropWhile isWordChar := by rw [heq]
        _ = rest := List.takeWhile_append_dropWhile isWordChar rest
  · exact absurd h (by simp)

theorem scanPlaceholdersF_congr (p q : String → Option String) (hpq : ∀ k, p k = q k) :
    ∀ (n : Nat) (s : List Char), scanPlaceholdersF p n s = scanPlaceholdersF q n s := by
  intro n
  induction n with
  | zero => intro s; rfl
  | succ n ih =>
    intro s
    cases s with
    | nil => rfl
    | cons c rest =>
      by_cases hc : c = '{'
      · simp only [scanPlaceholdersF, hc, if_true]
        cases hm : matchPlaceholder rest with
        | none => simp [ih]
        | some kr => simp [hpq kr.1, ih]
      · simp only [scanPlaceholdersF, hc, if_false, ih]

theorem scanPlaceholdersF_none_id :
    ∀ (n : Nat) (s : List Char), scanPlaceholdersF (fun _ => none) n s = s := by
  intro n
  induction n with
  | zero => intro s; rfl
  | succ n ih =>
    intro s
    cases s with
    | nil => rfl
    | cons c rest =>
      by_cases hc : c = '{'
      · simp only [scanPlaceholdersF, hc, if_true]
        cases hm : matchPlaceholder rest with
        | none => simp [ih]
        | some kr =>
          obtain ⟨key, rest'⟩ := kr
          have hrec := matchPlaceholder_recon hm
          simp only [ih]
          rw [← hrec]
          simp
      · simp only [scanPlaceholdersF, hc, if_false, ih]

theorem scanPlaceholdersF_id_of_no_placeholder (p : String → Option String) :
    ∀ (n : Nat) (s : List Char), hasPlaceholder s = false → scanPlaceholdersF p n s = s := by
  intro n
  induction n with
  | zero => intro s _; rfl
  | succ n ih =>
    intro s hs
    cases s with
    | nil => rfl
    | cons c rest =>
      by_cases hc : c = '{'
      · simp only [hasPlaceholder, hc, if_true, Bool.or_eq_false_iff] at hs
        obtain ⟨hm, hrest⟩ := hs
        cases hmm : matchPlaceholder rest with
        | none => simp [scanPlaceholdersF, hc, hmm, ih rest hrest]
        | some kr => rw [hmm] at hm; simp at hm
      · simp only [hasPlaceholder, hc, if_false] at hs
        simp [scanPlaceholdersF, hc, ih rest hs]

theorem updateEvents_graph_node (jsonOk : String → Bool) (fl : LoopFlags) (name : String)
    (msgs : List String)
    (hname : name = "introduction_node" ∨ name = "event_extraction_node" ∨
      name = "nft_creation_node") :
    updateEvents jsonOk fl name msgs = ([], fl) := by
  rcases hname with rfl | rfl | rfl <;>
    · cases msgs with
      | nil => rfl
      | cons m rest =>
        by_cases hm : m = "" <;>
          · cases ho : objMatch m <;>
              simp [updateEvents, plainDispatch, hm, ho]

theorem processUpdates_graph_nodes (jsonOk : String → Bool) :
    ∀ (updates : List (String × List String)) (fl : LoopFlags),
      (∀ p ∈ updates, p.1 = "introduction_node" ∨ p.1 = "event_extraction_node" ∨
        p.1 = "nft_creation_node") →
      processUpdates jsonOk updates fl = ([], fl) := by
  intro updates
  induction updates with
  | nil => intro fl _; rfl
  | cons u rest ih =>
    intro fl hall
    obtain ⟨n, ms⟩ := u
    have h1 := hall (n, ms) (by simp)
    have h2 : ∀ p ∈ rest, p.1 = "introduction_node" ∨ p.1 = "event_extraction_node" ∨
        p.1 = "nft_creation_node" := fun p hp => hall p (by simp [hp])
    simp only [processUpdates]
    rw [updateEvents_graph_node jsonOk fl n ms h1, ih fl h2]
    rfl

theorem runGraph_updates_names (inp : String) (hist : List BaseMessage) (r1 r2 now : String) :
    ∀ p ∈ (runGraph inp hist r1 r2 now).updates,
      p.1 = "introduction_node" ∨ p.1 = "event_extraction_node" ∨ p.1 = "nft_creation_node" := by
  intro p hp
  simp only [runGraph] at hp
  split at hp
  · simp at hp
    simp [hp]
  · split at hp
    · simp at hp
      rcases hp with hp | hp <;> simp [hp]
    · simp at hp
      rcases hp with hp | hp | hp <;> simp [hp]

theorem streamRun_runGraph_end_only (jsonOk : String → Bool) (inp : String)
    (hist : List BaseMessage) (r1 r2 now : String) :
    streamRun jsonOk (runGraph inp hist r1 r2 now).updates = [WireEvent.endEvent] := by
  rw [streamRun,
    processUpdates_graph_nodes jsonOk _ initialFlags (runGraph_updates_names inp hist r1 r2 now)]
  rfl

/-! ## Claim theorems -/

/-- C1 (code bug evaluation): for the keyword-free input "hello there", the
run from the initial stage makes exactly one model call and reaches the
terminal routing after the introduction stage — but the wire-event sequence
is only the single `end` event: the streaming loop compares node names
against `initial_node` (and the `wager_*` names), none of which the graph
uses, so neither the `loading` nor the `message` event claimed by the spec
is ever emitted. -/
theorem c1_no_keyword_run_emits_only_end :
    ∀ (hist : List BaseMessage) (r1 r2 now : String) (jsonOk : String → Bool),
      (runGraph "hello there" hist r1 r2 now).modelCalls = 1 ∧
      (runGraph "hello there" hist r1 r2 now).finalState.currentStep = "introduction_complete" ∧
      routeAfterIntroduction (runGraph "hello there" hist r1 r2 now).finalState = none ∧
      (runGraph "hello there" hist r1 r2 now).updates = [("introduction_node", [r1])] ∧
      streamRun jsonOk (runGraph "hello there" hist r1 r2 now).updates = [WireEvent.endEvent] := by
  intro hist r1 r2 now jsonOk
  have hkw : testEventCreation (jsToLowerCase "hello there") = false := by decide
  refine ⟨?_, ?_, ?_, ?_, streamRun_runGraph_end_only jsonOk "hello there" hist r1 r2 now⟩ <;>
    simp [runGraph, initState, introduction_node, applyUpdate, jsNullish, routeAfterIntroduction,
      hkw]

/-- C3 (code bug evaluation): a first message of the ticket-creation stage
(`nft_creation_node`) carrying a well-formed `[OBJ]...[/OBJ]` payload is
not relayed at all — no `wager` event and no `message` event — because the
streaming loop only emits the `wager` event for a node named
`wager_validation_node`, a name the graph never uses; consequently no run
of the graph ever produces a `wager` event. -/
theorem c3_wager_branch_never_fires :
    ∀ (jsonOk : String → Bool) (fl : LoopFlags),
      objMatch "[OBJ]payload[/OBJ]" = some "payload" ∧
      (updateEvents jsonOk fl "nft_creation_node" ["[OBJ]payload[/OBJ]"]).1 = [] ∧
      (∀ (inp : String) (hist : List BaseMessage) (r1 r2 now c p : String),
        WireEvent.wager c p ∉ streamRun jsonOk (runGraph inp hist r1 r2 now).updates) := by
  intro jsonOk fl
  refine ⟨by decide, ?_, ?_⟩
  · rw [updateEvents_graph_node jsonOk fl "nft_creation_node" _ (by simp)]
  · intro inp hist r1 r2 now c p
    rw [streamRun_runGraph_end_only jsonOk inp hist r1 r2 now]
    simp

/-- C2 counterexample: for the marker-carrying model reply with a missing
`|` separator, the claim says the machine remains in the EventExtraction
stage; the code instead sets `currentStep` to `"nft_creation"`, so the run
is routed into the NFT-creation stage. -/
theorem c2_missing_separator_still_transitions :
    (event_extraction_node wState1 "EXTRACTION_COMPLETE: Summer Gala").currentStep =
        some "nft_creation" ∧
      routeAfterExtraction
          (applyUpdate wState1 (event_extraction_node wState1 "EXTRACTION_COMPLETE: Summer Gala")) =
        some "nft_creation_node" ∧
      ("nft_creation" : String) ≠ "event_extraction" := by
  refine ⟨by decide, by decide, by decide⟩

/-- C2 amended: when the model reply begins with `EXTRACTION_COMPLETE:`,
the remainder is split on every `|` (not only the first) into trimmed
fields, the machine always transitions to NftCreation emitting no message
— a missing separator is not treated as extraction-incomplete; it merely
leaves the `eventDate` update absent, so the prior value is kept — and
fields beyond the second are discarded. -/
theorem c2_amended_marker_always_transitions :
    (∀ (s : AdapticState) (reply : String), jsStartsWith reply extractionMarker = true →
      (event_extraction_node s reply).currentStep = some "nft_creation" ∧
      (event_extraction_node s reply).messages = []) ∧
    (∀ s : AdapticState, (event_extraction_node s "EXTRACTION_COMPLETE: Summer Gala").eventName =
      some "Summer Gala" ∧
      (event_extraction_node s "EXTRACTION_COMPLETE: Summer Gala").eventDate = none ∧
      (applyUpdate s (event_extraction_node s "EXTRACTION_COMPLETE: Summer Gala")).eventDate =
        s.eventDate) ∧
    (∀ s : AdapticState, (event_extraction_node s "EXTRACTION_COMPLETE: A | B | C").eventName =
      some "A" ∧
      (event_extraction_node s "EXTRACTION_COMPLETE: A | B | C").eventDate = some "B") := by
  refine ⟨?_, ?_, ?_⟩
  · intro s reply h
    simp [event_extraction_node, h]
  · intro s
    refine ⟨by rfl, by rfl, by simp [applyUpdate, event_extraction_node, jsNullish]; rfl⟩
  · intro s
    exact ⟨by rfl, by rfl⟩

/-- C2 amended witness at the well-formed reply of C4. -/
theorem c2_amended_witness :
    jsStartsWith "EXTRACTION_COMPLETE: Summer Gala | 25/12/2025" extractionMarker = true ∧
      (event_extraction_node wState1 "EXTRACTION_COMPLETE: Summer Gala | 25/12/2025").currentStep =
        some "nft_creation" ∧
      (event_extraction_node wState1 "EXTRACTION_COMPLETE: Summer Gala | 25/12/2025").messages =
        [] := by
  refine ⟨by decide, ?_⟩
  exact c2_amended_marker_always_transitions.1 wState1
    "EXTRACTION_COMPLETE: Summer Gala | 25/12/2025" (by decide)

/-- C4: the model reply `"EXTRACTION_COMPLETE: Summer Gala | 25/12/2025"`
makes the extraction stage store the trimmed fields and routes the run to
the NFT-creation stage. -/
theorem c4_extraction_example :
    (event_extraction_node wState1 wReply2).eventName = some "Summer Gala" ∧
      (event_extraction_node wState1 wReply2).eventDate = some "25/12/2025" ∧
      (event_extraction_node wState1 wReply2).currentStep = some "nft_creation" ∧
      routeAfterExtraction (applyUpdate wState1 (event_extraction_node wState1 wReply2)) =
        some "nft_creation_node" := by
  refine ⟨by decide, by decide, by decide, by decide⟩

/-- C5 counterexample: the claim says a placeholder whose name is a key of
the mapping is replaced by the mapped value; for the mapping sending
`name` to the empty string, the spec rendering gives `"Hi "`, while
`formatTemplate` (`data[key] || match`) leaves the placeholder verbatim. -/
theorem c5_empty_value_not_substituted :
    formatTemplate "Hi {name}" (fun k => if k = "name" then some "" else none) = "Hi {name}" ∧
      renderSpec "Hi {name}" (fun k => if k = "name" then some "" else none) = "Hi " ∧
      ("Hi {name}" : String) ≠ "Hi " := by
  refine ⟨by decide, by decide, by decide⟩

/-- C5 amended: `formatTemplate` replaces every placeholder whose name maps
to a non-empty value, agreeing with the spec rendering whenever no mapped
value is the empty string; a placeholder whose name is absent — in
particular under the empty mapping — is left verbatim (braces preserved,
no exception possible), and a string without placeholders is a fixed
point. -/
theorem c5_render_properties :
    (∀ (t : String) (data : String → Option String),
      (∀ k v, data k = some v → v ≠ "") → formatTemplate t data = renderSpec t data) ∧
    (∀ s : String, formatTemplate s (fun _ => none) = s) ∧
    (∀ (s : String) (data : String → Option String),
      hasPlaceholder s.data = false → formatTemplate s data = s) ∧
    formatTemplate "Hi {name}" (fun _ => none) = "Hi {name}" := by
  refine ⟨?_, ?_, ?_, by decide⟩
  · intro t data hne
    have hpt : ∀ k, (match data k with
        | some v => if v = "" then none else some v
        | none => none) = data k := by
      intro k
      cases hk : data k with
      | none => rfl
      | some v =>
        have := hne k v hk
        simp [this]
    simp only [formatTemplate, renderSpec, scanPlaceholders]
    rw [scanPlaceholdersF_congr _ _ hpt]
  · intro s
    have h := scanPlaceholdersF_none_id s.length s.data
    have hpol : ∀ k, (match (none : Option String) with
        | some v => if v = "" then none else some v
        | none => none) = (fun (_ : String) => (none : Option String)) k := fun _ => rfl
    simp only [formatTemplate, scanPlaceholders]
    rw [scanPlaceholdersF_congr _ _ (fun k => rfl), h]
  · intro s data h
    simp only [formatTemplate, scanPlaceholders]
    rw [scanPlaceholdersF_id_of_no_placeholder _ s.length s.data h]

/-- C5 amended witness: the refinement equation applied to a mapping with
the non-empty value "Bob", and the fixed-point part applied to a
placeholder-free string. -/
theorem c5_render_properties_witness :
    formatTemplate "Hi {name}" (fun k => if k = "name" then some "Bob" else none) =
        renderSpec "Hi {name}" (fun k => if k = "name" then some "Bob" else none) ∧
      formatTemplate "abc" (fun _ => some "zzz") = "abc" := by
  constructor
  · refine c5_render_properties.1 "Hi {name}" _ ?_
    intro k v h
    by_cases hk : k = "name" <;> simp [hk] at h <;> simp [← h]
  · exact c5_render_properties.2.2.1 "abc" _ (by decide)

/-- C6: the history adapter maps each `(role, text)` pair to a message with
case-insensitive role matching — `human` to Human, `assistant` and `ai` to
Assistant, anything unrecognized to Human — preserving order exactly
(position `i` of the output is the conversion of position `i` of the
input), with empty input yielding empty output, and in particular
`[("human","a"), ("ai","b")]` yields `[Human "a", Assistant "b"]`. -/
theorem c6_history_adapter :
    (∀ pairs : List (String × String),
      (convertChatHistoryToMessages pairs).length = pairs.length) ∧
    (∀ (pairs : List (String × String)) (i : Nat),
      (convertChatHistoryToMessages pairs).get? i =
        (pairs.get? i).map (fun p => roleToMessage p.1 p.2)) ∧
    (∀ r1 r2 t : String, jsToLowerCase r1 = jsToLowerCase r2 →
      roleToMessage r1 t = roleToMessage r2 t) ∧
    (∀ t : String,
      roleToMessage "human" t = BaseMessage.humanMessage t ∧
      roleToMessage "HuMaN" t = BaseMessage.humanMessage t ∧
      roleToMessage "assistant" t = BaseMessage.aiMessage t ∧
      roleToMessage "Assistant" t = BaseMessage.aiMessage t ∧
      roleToMessage "ai" t = BaseMessage.aiMessage t ∧
      roleToMessage "AI" t = BaseMessage.aiMessage t ∧
      roleToMessage "weird" t = BaseMessage.humanMessage t) ∧
    convertChatHistoryToMessages [] = [] ∧
    convertChatHistoryToMessages [("human", "a"), ("ai", "b")] =
      [BaseMessage.humanMessage "a", BaseMessage.aiMessage "b"] := by
  refine ⟨?_, ?_, ?_, ?_, by rfl, by rfl⟩
  · intro pairs
    simp [convertChatHistoryToMessages]
  · intro pairs i
    simp [convertChatHistoryToMessages, List.get?_map]
  · intro r1 r2 t h
    unfold roleToMessage
    rw [h]
  · intro t
    refine ⟨by rfl, by rfl, by rfl, by rfl, by rfl, by rfl, by rfl⟩

/-- C6 witness: the case-insensitivity component applied to two spellings
of the same role label. -/
theorem c6_history_adapter_witness :
    roleToMessage "HuMan" "x" = roleToMessage "hUMAN" "x" :=
  c6_history_adapter.2.2.1 "HuMan" "hUMAN" "x" (by decide)

/-- C7: for a run interrupted by an uncaught failure after any prefix of
updates, when no introduce-stage message has been emitted (the
`initialNodeComplete` flag is still false) the catch block sends exactly
one apologetic fallback `message`, and in all cases the `error` event
carrying the failure description is sent, followed by `end`; both the
normal and the failing stream end with the `end` event. -/
theorem c7_failure_wire_events :
    ∀ (jsonOk : String → Bool) (updates : List (String × List String)) (errMsg : String),
      (streamRun jsonOk updates).getLast? = some WireEvent.endEvent ∧
      (streamRunError jsonOk updates errMsg).getLast? = some WireEvent.endEvent ∧
      WireEvent.error errMsg ∈ streamRunError jsonOk updates errMsg ∧
      ((processUpdates jsonOk updates initialFlags).2.initialNodeComplete = false →
        streamRunError jsonOk updates errMsg =
          (processUpdates jsonOk updates initialFlags).1 ++
            [WireEvent.message apologyText, WireEvent.error errMsg, WireEvent.endEvent]) ∧
      ((processUpdates jsonOk updates initialFlags).2.initialNodeComplete = true →
        streamRunError jsonOk updates errMsg =
          (processUpdates jsonOk updates initialFlags).1 ++
            [WireEvent.error errMsg, WireEvent.endEvent]) := by
  intro jsonOk updates errMsg
  refine ⟨List.getLast?_concat _, ?_, ?_, ?_, ?_⟩
  · rw [streamRunError]
    rw [List.getLast?_append_of_ne_nil _ (by simp)]
    rfl
  · simp [streamRunError]
  · intro h
    simp [streamRunError, h]
  · intro h
    simp [streamRunError, h]

/-- C7 witness: a failure before any update is processed produces exactly
the apologetic fallback, the error event and the end event. -/
theorem c7_failure_wire_events_witness :
    streamRunError (fun _ => false) [] "boom" =
      [WireEvent.message apologyText, WireEvent.error "boom", WireEvent.endEvent] := by
  have h := (c7_failure_wire_events (fun _ => false) [] "boom").2.2.2.1 (by rfl)
  simpa using h

/-- C10: the streaming loop inspects only the first element of a stage's
emitted message list — the events (and flag changes) for an update are the
same as for the update truncated to its first message, so a second or
later message is never relayed. -/
theorem c10_only_first_message_relayed :
    ∀ (jsonOk : String → Bool) (fl : LoopFlags) (nodeName : String) (msgs : List String),
      updateEvents jsonOk fl nodeName msgs = updateEvents jsonOk fl nodeName (msgs.take 1) := by
  intro jsonOk fl nodeName msgs
  cases msgs with
  | nil => rfl
  | cons m rest => rfl

/-! ## Field lemmas for the reachability invariants -/

theorem introNode_eventName (s : AdapticState) (r : String) :
    (introduction_node s r).eventName = none := by
  unfold introduction_node; split <;> rfl

theorem introNode_eventDate (s : AdapticState) (r : String) :
    (introduction_node s r).eventDate = none := by
  unfold introduction_node; split <;> rfl

theorem introNode_nftTicketObject (s : AdapticState) (r : String) :
    (introduction_node s r).nftTicketObject = none := by
  unfold introduction_node; split <;> rfl

theorem introNode_currentStep (s : AdapticState) (r : String) :
    (introduction_node s r).currentStep = some "event_extraction" ∨
      (introduction_node s r).currentStep = some "introduction_complete" := by
  unfold introduction_node
  split
  · exact Or.inl rfl
  · exact Or.inr rfl

theorem extrNode_nftTicketObject (s : AdapticState) (r : String) :
    (event_extraction_node s r).nftTicketObject = none := by
  unfold event_extraction_node; split <;> rfl

theorem extrNode_currentStep (s : AdapticState) (r : String) :
    (event_extraction_node s r).currentStep = some "nft_creation" ∨
      (event_extraction_node s r).currentStep = some "event_extraction" := by
  unfold event_extraction_node
  split
  · exact Or.inl rfl
  · exact Or.inr rfl

theorem applyUpdate_state1_eventName (s : AdapticState) (r : String) :
    (applyUpdate s (introduction_node s r)).eventName = s.eventName := by
  simp [applyUpdate, introNode_eventName, jsNullish]

theorem applyUpdate_state1_eventDate (s : AdapticState) (r : String) :
    (applyUpdate s (introduction_node s r)).eventDate = s.eventDate := by
  simp [applyUpdate, introNode_eventDate, jsNullish]

theorem applyUpdate_nftNode_eventName (s : AdapticState) (now : String) :
    (applyUpdate s (nft_creation_node s now)).eventName = s.eventName := by
  simp [applyUpdate, nft_creation_node, jsNullish]

theorem applyUpdate_nftNode_eventDate (s : AdapticState) (now : String) :
    (applyUpdate s (nft_creation_node s now)).eventDate = s.eventDate := by
  simp [applyUpdate, nft_creation_node, jsNullish]

theorem state1_currentStep (s : AdapticState) (r : String) :
    (applyUpdate s (introduction_node s r)).currentStep = "event_extraction" ∨
      (applyUpdate s (introduction_node s r)).currentStep = "introduction_complete" := by
  rcases introNode_currentStep s r with h | h
  · left; simp [applyUpdate, h]
  · right; simp [applyUpdate, h]

theorem state2_currentStep (s : AdapticState) (r : String) :
    (applyUpdate s (event_extraction_node s r)).currentStep = "nft_creation" ∨
      (applyUpdate s (event_extraction_node s r)).currentStep = "event_extraction" := by
  rcases extrNode_currentStep s r with h | h
  · left; simp [applyUpdate, h]
  · right; simp [applyUpdate, h]

theorem state1_ticket (s : AdapticState) (r : String) :
    (applyUpdate s (introduction_node s r)).nftTicketObject = s.nftTicketObject := by
  simp [applyUpdate, introNode_nftTicketObject, jsNullish]

theorem state2_ticket (s : AdapticState) (r : String) :
    (applyUpdate s (event_extraction_node s r)).nftTicketObject = s.nftTicketObject := by
  simp [applyUpdate, extrNode_nftTicketObject, jsNullish]

theorem state3_fields (s : AdapticState) (now : String) :
    (applyUpdate s (nft_creation_node s now)).nftTicketObject ≠ none ∧
      (applyUpdate s (nft_creation_node s now)).currentStep = "completed" := by
  constructor
  · simp [applyUpdate, nft_creation_node, jsNullish]
  · simp [applyUpdate, nft_creation_node]

/-- C8: in every reachable state of the graph, the ticket object is present
exactly when the run has reached the Completed step set by the NFT-creation
stage: no earlier stage ever holds a ticket object, and the `"completed"`
step always comes with the ticket object set. -/
theorem c8_ticket_iff_completed :
    ∀ s : AdapticState, Reachable s → (s.nftTicketObject ≠ none ↔ s.currentStep = "completed") := by
  rintro s ⟨inp, hist, r1, r2, now, s, hmem⟩
  simp only [runStates] at hmem
  split at hmem
  · simp only [List.mem_cons, List.not_mem_nil, or_false] at hmem
    rcases hmem with rfl | rfl
    · simp [initState]
    · rcases state1_currentStep (initState inp hist) r1 with h | h <;>
        rw [state1_ticket, h] <;> simp [initState]
  · split at hmem
    · simp only [List.mem_cons, List.not_mem_nil, or_false] at hmem
      rcases hmem with rfl | rfl | rfl
      · simp [initState]
      · rcases state1_currentStep (initState inp hist) r1 with h | h <;>
          rw [state1_ticket, h] <;> simp [initState]
      · rcases state2_currentStep _ r2 with h | h <;>
          rw [state2_ticket, state1_ticket, h] <;> simp [initState]
    · simp only [List.mem_cons, List.not_mem_nil, or_false] at hmem
      rcases hmem with rfl | rfl | rfl | rfl
      · simp [initState]
      · rcases state1_currentStep (initState inp hist) r1 with h | h <;>
          rw [state1_ticket, h] <;> simp [initState]
      · rcases state2_currentStep _ r2 with h | h <;>
          rw [state2_ticket, state1_ticket, h] <;> simp [initState]
      · rw [(state3_fields _ now).2]
        simp [(state3_fields _ now).1]

/-- C8 witness: the initial state of a run is reachable, has no ticket
object, and is not at the completed step. -/
theorem c8_ticket_iff_completed_witness :
    ((initState "hi" []).nftTicketObject ≠ none ↔ (initState "hi" []).currentStep = "completed") :=
  c8_ticket_iff_completed (initState "hi" [])
    (Reachable.of_run "hi" [] "a" "b" "t" (initState "hi" []) (by decide))

/-- C9: along the states of any single run, the `eventName` and `eventDate`
fields are monotone — a value present at an earlier state of the run is
still present, unchanged, at every later state; no later stage unsets or
clears it. -/
theorem c9_event_fields_monotone :
    ∀ (inp : String) (hist : List BaseMessage) (r1 r2 now : String) (i j : Nat)
      (a b : AdapticState), i ≤ j →
      (runStates inp hist r1 r2 now).get? i = some a →
      (runStates inp hist r1 r2 now).get? j = some b →
      (∀ v, a.eventName = some v → b.eventName = some v) ∧
      (∀ v, a.eventDate = some v → b.eventDate = some v) := by
  intro inp hist r1 r2 now i j a b hij ha hb
  cases hroute1 : routeAfterIntroduction (applyUpdate (initState inp hist)
      (introduction_node (initState inp hist) r1)) with
  | none =>
    simp only [runStates, hroute1] at ha hb
    rcases i with _ | _ | i <;> rcases j with _ | _ | j <;>
      simp only [List.get?, Option.some.injEq] at ha hb
    all_goals try omega
    all_goals try exact absurd ha (by simp)
    all_goals try exact absurd hb (by simp)
    all_goals subst ha
    all_goals subst hb
    all_goals refine ⟨?_, ?_⟩
    all_goals intro v hv
    all_goals
      first
        | exact hv
        | (simp [initState] at hv; done)
        | (rw [applyUpdate_state1_eventName] at hv; simp [initState] at hv; done)
        | (rw [applyUpdate_state1_eventDate] at hv; simp [initState] at hv; done)
  | some x1 =>
    cases hroute2 : routeAfterExtraction (applyUpdate
        (applyUpdate (initState inp hist) (introduction_node (initState inp hist) r1))
        (event_extraction_node
          (applyUpdate (initState inp hist) (introduction_node (initState inp hist) r1)) r2)) with
    | none =>
      simp only [runStates, hroute1, hroute2] at ha hb
      rcases i with _ | _ | _ | i <;> rcases j with _ | _ | _ | j <;>
        simp only [List.get?, Option.some.injEq] at ha hb
      all_goals try omega
      all_goals try exact absurd ha (by simp)
      all_goals try exact absurd hb (by simp)
      all_goals subst ha
      all_goals subst hb
      all_goals refine ⟨?_, ?_⟩
      all_goals intro v hv
      all_goals
        first
          | exact hv
          | (simp [initState] at hv; done)
          | (rw [applyUpdate_state1_eventName] at hv; simp [initState] at hv; done)
          | (rw [applyUpdate_state1_eventDate] at hv; simp [initState] at hv; done)
    | some x2 =>
      simp only [runStates, hroute1, hroute2] at ha hb
      rcases i with _ | _ | _ | _ | i <;> rcases j with _ | _ | _ | _ | j <;>
        simp only [List.get?, Option.some.injEq] at ha hb
      all_goals try omega
      all_goals try exact absurd ha (by simp)
      all_goals try exact absurd hb (by simp)
      all_goals subst ha
      all_goals subst hb
      all_goals refine ⟨?_, ?_⟩
      all_goals intro v hv
      all_goals
        first
          | exact hv
          | (simp [initState] at hv; done)
          | (rw [applyUpdate_state1_eventName] at hv; simp [initState] at hv; done)
          | (rw [applyUpdate_state1_eventDate] at hv; simp [initState] at hv; done)
          | (rw [applyUpdate_nftNode_eventName]; exact hv)
          | (rw [applyUpdate_nftNode_eventDate]; exact hv)

set_option maxRecDepth 8192 in
/-- C9 witness: in a run that reaches the NFT-creation stage, the event
name and date extracted at the third state persist into the fourth. -/
theorem c9_event_fields_monotone_witness :
    (runStates "create" [] "unused" wReply2 "t").get? 2 = some wState2 ∧
      (runStates "create" [] "unused" wReply2 "t").get? 3 =
        some (applyUpdate wState2 (nft_creation_node wState2 "t")) ∧
      (applyUpdate wState2 (nft_creation_node wState2 "t")).eventName = some "Summer Gala" ∧
      (applyUpdate wState2 (nft_creation_node wState2 "t")).eventDate = some "25/12/2025" := by
  refine ⟨by decide, by decide, ?_, ?_⟩
  · exact (c9_event_fields_monotone "create" [] "unused" wReply2 "t" 2 3 wState2
      (applyUpdate wState2 (nft_creation_node wState2 "t")) (by decide) (by decide)
      (by decide)).1 "Summer Gala" (by decide)
  · exact (c9_event_fields_monotone "create" [] "unused" wReply2 "t" 2 3 wState2
      (applyUpdate wState2 (nft_creation_node wState2 "t")) (by decide) (by decide)
      (by decide)).2 "25/12/2025" (by decide)
